import Mathlib

/-!
Verification of the access-control and command-dispatch core of `dpy-devtools`.

The definitions below are a shallow embedding of `src/dpydevtools/tools.py`,
`src/dpydevtools/parser.py`, `src/dpydevtools/utils.py`,
`src/dpydevtools/enums.py`, `src/dpydevtools/constants.py` and
`src/dpydevtools/exceptions.py`.  Python dicts are modelled as
insertion-ordered association lists, stateful methods as explicit
state-passing functions, and fallible code as `Except`.
-/

/-! ## Python dict model: insertion-ordered association lists -/

/-- Python dict read: the value of the first binding of key `k`, if any. -/
def dictLookup {κ α : Type} [DecidableEq κ] : List (κ × α) → κ → Option α
  | [], _ => none
  | (k', v) :: rest, k => if k' = k then some v else dictLookup rest k

/-- Python dict write: replace the binding in place when the key is present,
append a new binding at the end otherwise. -/
def dictInsert {κ α : Type} [DecidableEq κ] : List (κ × α) → κ → α → List (κ × α)
  | [], k, v => [(k, v)]
  | (k', v') :: rest, k, v =>
    if k' = k then (k', v) :: rest else (k', v') :: dictInsert rest k v

/-- Python `dict.update`: fold the writes of `e` into `d`, left to right. -/
def dictUpdate {κ α : Type} [DecidableEq κ] (d e : List (κ × α)) : List (κ × α) :=
  e.foldl (fun acc p => dictInsert acc p.1 p.2) d

/-! ## Constants and name validation (`constants.py`, `utils.py`) -/

/-- `constants.ALLOWCHARS`: lowercase alphanumerics and the underscore. -/
def ALLOWCHARS : List Char := "abcdefghijklmnopqrstuvwxyz1234567890_".toList

/-- Boolean form of the charset test in `utils._ensure_chars_allowed`:
every character of the string belongs to `ALLOWCHARS`. -/
def charsAllowed (s : String) : Bool :=
  s.toList.all (fun c => ALLOWCHARS.contains c)

/-- `utils._ensure_chars_allowed`: raise `ValueError` when the string holds a
character outside `ALLOWCHARS`. -/
def ensureCharsAllowed (s : String) : Except String Unit :=
  if charsAllowed s then Except.ok ()
  else Except.error (s ++ " must only include lowercase alphanumericals and underscores")

/-! ## The access-level enum (`enums.py`) -/

/-- `enums.ControlGroupOptions`: the six access levels. -/
inductive ControlGroupOptions : Type where
  | disabled
  | enabled
  | inherit
  | modplus
  | adminplus
  | devonly
deriving DecidableEq, Repr

/-- `enums.ControlGroupOptions(value)`: construct the enum from its string
value, failing (`ValueError` in the source) on any other string. -/
def ControlGroupOptions.ofString : String → Option ControlGroupOptions
  | "disabled" => some ControlGroupOptions.disabled
  | "enabled" => some ControlGroupOptions.enabled
  | "inherit" => some ControlGroupOptions.inherit
  | "modplus" => some ControlGroupOptions.modplus
  | "adminplus" => some ControlGroupOptions.adminplus
  | "devonly" => some ControlGroupOptions.devonly
  | _ => none

/-! ## `ControlGroups` (`tools.py` lines 38-99) -/

/-- The `ControlGroups` container: the three role tiers and the dict of
named groups. -/
structure ControlGroups : Type where
  moderators : List Int
  administrators : List Int
  developers : List Int
  groups : List (String × ControlGroupOptions)
deriving DecidableEq, Repr

/-- `ControlGroups._ensure_default_validity`: walk the group dict and raise on
the first name with a disallowed character.  (The companion value check
`isinstance(v, ControlGroupOptions)` cannot fail in this typed embedding.) -/
def ControlGroups.ensureDefaultValidity :
    List (String × ControlGroupOptions) → Except String Unit
  | [] => Except.ok ()
  | (k, _) :: rest =>
    match ensureCharsAllowed k with
    | Except.error e => Except.error e
    | Except.ok _ => ControlGroups.ensureDefaultValidity rest

/-- `ControlGroups.__init__`: start from the reserved binding
`"global" -> enabled`, apply the supplied defaults as a dict update, and,
when defaults were supplied, validate every binding of the resulting dict. -/
def ControlGroups.init (mods admins devs : List Int)
    (defaults : List (String × ControlGroupOptions)) : Except String ControlGroups :=
  let groups := dictUpdate [("global", ControlGroupOptions.enabled)] defaults
  let s : ControlGroups := ⟨mods, admins, devs, groups⟩
  if defaults.isEmpty then Except.ok s
  else
    match ControlGroups.ensureDefaultValidity groups with
    | Except.error e => Except.error e
    | Except.ok _ => Except.ok s

/-- `ControlGroups.__getitem__` on a (non-`None`) string key: lazily create a
missing group with level `inherit`, then return the stored level together
with the possibly extended container. -/
def ControlGroups.getItem (s : ControlGroups) (k : String) :
    ControlGroupOptions × ControlGroups :=
  match dictLookup s.groups k with
  | some v => (v, s)
  | none =>
    (ControlGroupOptions.inherit,
     ⟨s.moderators, s.administrators, s.developers,
      dictInsert s.groups k ControlGroupOptions.inherit⟩)

/-- `ControlGroups.__setitem__`: insert or overwrite a binding.  The only
check in the source is `isinstance(value, ControlGroupOptions)`, which the
typed embedding renders unfailing; the key is not validated. -/
def ControlGroups.setItem (s : ControlGroups) (k : String)
    (v : ControlGroupOptions) : ControlGroups :=
  ⟨s.moderators, s.administrators, s.developers, dictInsert s.groups k v⟩

/-- The if-chain at the end of `ControlGroups.check`, deciding a resolved
level against the role tiers of the container. -/
def ControlGroups.checkDecision (v : ControlGroupOptions) (s : ControlGroups)
    (u : Int) : Bool :=
  if v = ControlGroupOptions.inherit then true
  else if v = ControlGroupOptions.enabled then true
  else if v = ControlGroupOptions.modplus &&
      (s.moderators ++ s.administrators ++ s.developers).contains u then true
  else if v = ControlGroupOptions.adminplus &&
      (s.administrators ++ s.developers).contains u then true
  else if v = ControlGroupOptions.devonly && s.developers.contains u then true
  else false

/-- `ControlGroups.check`: read the group's level (lazily creating it), fall
back to the `"global"` group when the level is `inherit`, then decide. -/
def ControlGroups.check (s : ControlGroups) (g : String) (u : Int) :
    Bool × ControlGroups :=
  let r1 := s.getItem g
  let r2 :=
    if r1.1 = ControlGroupOptions.inherit then r1.2.getItem "global" else r1
  (ControlGroups.checkDecision r2.1 r2.2 u, r2.2)

/-! ## `UserGroups` (`tools.py` lines 102-130), used for white- and blacklists -/

/-- The `UserGroups` container: a dict from list names to lists of user ids. -/
structure UserGroups : Type where
  groups : List (String × List Int)
deriving DecidableEq, Repr

/-- `UserGroups.__getitem__` on a (non-`None`) string key: lazily create a
missing list as empty, then return the stored list with the container. -/
def UserGroups.getItem (s : UserGroups) (k : String) : List Int × UserGroups :=
  match dictLookup s.groups k with
  | some v => (v, s)
  | none => ([], ⟨dictInsert s.groups k []⟩)

/-- `UserGroups.check`: membership of the user id in the (lazily created)
named list. -/
def UserGroups.check (s : UserGroups) (k : String) (u : Int) :
    Bool × UserGroups :=
  let r := s.getItem k
  (r.1.contains u, r.2)

/-- `DevTools._control_whitelists__add` after the integer coercion of the
user id (`tools.py` lines 542-557; `_control_blacklists__add` is identical):
fail when the named list does not exist or already holds the id, otherwise
append the id at the end of the list. -/
def UserGroups.addUser (s : UserGroups) (name : String) (u : Int) :
    Except String UserGroups :=
  match dictLookup s.groups name with
  | none => Except.error ("whitelist " ++ name ++ " not found")
  | some l =>
    if l.contains u then
      Except.error ("whitelist " ++ name ++ " already contains the userid " ++ toString u)
    else
      Except.ok ⟨dictInsert s.groups name (l ++ [u])⟩

/-- `DevTools._control_whitelists__remove` after the integer coercion
(`tools.py` lines 559-574): fail when the named list does not exist or does
not hold the id, otherwise remove the first occurrence of the id. -/
def UserGroups.removeUser (s : UserGroups) (name : String) (u : Int) :
    Except String UserGroups :=
  match dictLookup s.groups name with
  | none => Except.error ("whitelist " ++ name ++ " not found")
  | some l =>
    if l.contains u then
      Except.ok ⟨dictInsert s.groups name (l.erase u)⟩
    else
      Except.error ("whitelist " ++ name ++ " does not contains the userid " ++ toString u)

/-! ## `Tracker` and `TrackingSession` (`tools.py` lines 133-171) -/

/-- The `Tracker` state: the active-session tokens, the bounded history
(a `collections.deque` with `maxlen=15`, newest at the right), and the
per-guild invocation counters. -/
structure Tracker : Type where
  active : List String
  history : List String
  counts : List (Int × Int)
deriving DecidableEq, Repr

/-- The empty tracker built by `Tracker.__init__`. -/
def Tracker.empty : Tracker := ⟨[], [], []⟩

/-- Appending to a `collections.deque` with `maxlen=15`: when the deque is
full the leftmost (oldest) entry is evicted. -/
def Tracker.pushHistory (h : List String) (e : String) : List String :=
  if h.length < 15 then h ++ [e] else h.drop 1 ++ [e]

/-- The session token of `TrackingSession.__init__`:
the string `userid@guildid`. -/
def Tracker.sessionToken (guildid userid : Int) : String :=
  toString userid ++ "@" ++ toString guildid

/-- `TrackingSession.__aenter__`: append the session token to the
active list. -/
def Tracker.sessionEnter (t : Tracker) (entry : String) : Tracker :=
  ⟨t.active ++ [entry], t.history, t.counts⟩

/-- `TrackingSession.__aexit__`: `list.remove`, deleting the first
occurrence of the session token from the active list. -/
def Tracker.sessionExit (t : Tracker) (entry : String) : Tracker :=
  ⟨t.active.erase entry, t.history, t.counts⟩

/-- `Tracker.__call__`: bump the guild counter (creating it at 1), append a
`userid@datestr` history entry, and hand back the token of the new session.
The timestamp string is an input of the model, as the wall clock is
external. -/
def Tracker.openSession (t : Tracker) (guildid userid : Int)
    (datestr : String) : Tracker × String :=
  let counts :=
    match dictLookup t.counts guildid with
    | none => dictInsert t.counts guildid 1
    | some c => dictInsert t.counts guildid (c + 1)
  (⟨t.active, Tracker.pushHistory t.history (toString userid ++ "@" ++ datestr), counts⟩,
   Tracker.sessionToken guildid userid)

/-- Folding a sequence of `(guildid, userid, datestr)` opens over a tracker. -/
def Tracker.openAll (t : Tracker) (opens : List (Int × Int × String)) : Tracker :=
  opens.foldl (fun acc o => (Tracker.openSession acc o.1 o.2.1 o.2.2).1) t

/-- The history entry recorded for one open. -/
def Tracker.histEntry (o : Int × Int × String) : String :=
  toString o.2.1 ++ "@" ++ o.2.2

/-- The wrapped tracked call of `DevTools.command` (`tools.py` lines
343-346): `async with session` enters the session, runs the command, and
exits the session again both when the command returns and when it raises. -/
def Tracker.trackedCall (t : Tracker) (entry : String)
    (call : Except Unit Unit) : Except Unit Unit × Tracker :=
  let t1 := t.sessionEnter entry
  match call with
  | Except.ok a => (Except.ok a, t1.sessionExit entry)
  | Except.error e => (Except.error e, t1.sessionExit entry)

/-! ## The `DevTools` facade state and `_check` (`tools.py` lines 201-269) -/

/-- The mutable collections owned by a `DevTools` instance. -/
structure DevToolsState : Type where
  control_groups : ControlGroups
  control_whitelists : UserGroups
  control_blacklists : UserGroups
  trackers : List (String × Tracker)
deriving DecidableEq, Repr

/-- Python truthiness of an optional string selector: `None` and the empty
string are falsy. -/
def truthy : Option String → Bool
  | none => false
  | some s => !s.isEmpty

/-- `DevTools._check`: unconditional pass when no selector is given;
otherwise blacklist denies first, then whitelist allows, then the control
group decides, and everything else is denied.  Each sub-check runs only when
its selector is truthy and short-circuits exactly as the source does, so
lazy creation happens only on the sub-checks actually reached. -/
def DevToolsState.check (st : DevToolsState) (cg cw cb : Option String)
    (u : Int) : Bool × DevToolsState :=
  if !truthy cg && !truthy cw && !truthy cb then (true, st)
  else
    let bres :=
      if truthy cb then st.control_blacklists.check (cb.getD "") u
      else (false, st.control_blacklists)
    let st1 : DevToolsState :=
      ⟨st.control_groups, st.control_whitelists, bres.2, st.trackers⟩
    if bres.1 then (false, st1)
    else
      let wres :=
        if truthy cw then st1.control_whitelists.check (cw.getD "") u
        else (false, st1.control_whitelists)
      let st2 : DevToolsState :=
        ⟨st1.control_groups, wres.2, st1.control_blacklists, st1.trackers⟩
      if wres.1 then (true, st2)
      else
        let gres :=
          if truthy cg then st2.control_groups.check (cg.getD "") u
          else (false, st2.control_groups)
        (gres.1, ⟨gres.2, st2.control_whitelists, st2.control_blacklists, st2.trackers⟩)

/-- `DevTools._control_groups__edit_all` (`tools.py` lines 494-507): parse
the level string, then set every existing group to that level. -/
def DevToolsState.controlGroupsEditAll (st : DevToolsState) (value : String) :
    Except String DevToolsState :=
  match ControlGroupOptions.ofString value with
  | none => Except.error ("invalid choice: " ++ value)
  | some v =>
    let names := st.control_groups.groups.map Prod.fst
    Except.ok
      ⟨names.foldl (fun s n => s.setItem n v) st.control_groups,
       st.control_whitelists, st.control_blacklists, st.trackers⟩

/-- `DevTools._control_groups__edit` (`tools.py` lines 509-524): parse the
level string, require the group to exist, then set its level. -/
def DevToolsState.controlGroupsEdit (st : DevToolsState)
    (group value : String) : Except String DevToolsState :=
  match ControlGroupOptions.ofString value with
  | none => Except.error ("invalid choice: " ++ value)
  | some v =>
    match dictLookup st.control_groups.groups group with
    | none => Except.error ("group " ++ group ++ " not found")
    | some _ =>
      Except.ok
        ⟨st.control_groups.setItem group v,
         st.control_whitelists, st.control_blacklists, st.trackers⟩

/-! ## The parser slice (`parser.py`, `exceptions.py`) -/

/-- `exceptions.ContainerException`: the structured parse failure carrying
the ordered list of diagnostic strings. -/
structure ContainerException : Type where
  messages : List String
deriving DecidableEq, Repr

/-- The value of a nonempty all-digit character list. -/
def digitsVal (cs : List Char) : Nat :=
  cs.foldl (fun n c => n * 10 + (c.toNat - 48)) 0

/-- Conversion of an all-digit character list, failing on an empty list or
any non-digit character. -/
def pyDigits (cs : List Char) : Option Nat :=
  if cs ≠ [] ∧ cs.all Char.isDigit then some (digitsVal cs) else none

/-- The Python built-in `int` on a string, as used by `Action__StrInt`: an
optional sign followed by a nonempty digit run parses, anything else raises
`ValueError` (modelled as `none`). -/
def pyIntParse (s : String) : Option Int :=
  match s.toList with
  | [] => none
  | '+' :: rest => (pyDigits rest).map (fun n => (n : Int))
  | '-' :: rest => (pyDigits rest).map (fun n => -(n : Int))
  | cs => (pyDigits cs).map (fun n => (n : Int))

/-- `parser.Action__StrInt.__call__`: coerce the second token of a declared
string+integer pair, raising `ArgumentError` with the fixed message when the
token is not integer-parseable. -/
def Action__StrInt (values : String × String) : Except String (String × Int) :=
  match pyIntParse values.2 with
  | some i => Except.ok (values.1, i)
  | none => Except.error "argument 2 must be an integer"

/-- `parser.CustomParser` failure path: `_print_message` accumulates the
usage text and `exit` appends the error line and raises
`ContainerException` with the accumulated diagnostics, instead of printing
and terminating the process. -/
def CustomParser.failure (usage errorLine : String) : ContainerException :=
  ⟨[usage, errorLine]⟩

/-- The usage text of the `control-whitelists` subparser; its exact content
is immaterial to the claims. -/
def cwUsage (prog : String) : String :=
  "usage: " ++ prog ++ " control-whitelists [-h] (-l | -g <name> | -a <name> <userid> | -r <name> <userid>)\n"

/-- Token shapes that select the add flag of the `control-whitelists`
subparser (`parser.py` lines 60-64): the subcommand or its alias followed by
the add flag in long or short form and its two argument tokens. -/
def cwAddTokens : List String → Option (String × String)
  | [sub, flag, name, val] =>
    if (sub = "control-whitelists" ∨ sub = "cw") ∧ (flag = "-a" ∨ flag = "--add")
    then some (name, val) else none
  | _ => none

/-- Modelled from the spec: the CommandRouter contract of spec section 4.6
for the control-whitelists add route.  The argparse traversal between the
grammar of `make_parser` and the pieces defined in this repository is an
external library; per the contract, when the pair action raises, the parser
reports the flag label followed by the action's message through
`CustomParser.error`, which
collects the usage text and the error line and raises the container
exception. -/
def parseCwAdd (prog : String) (tokens : List String) :
    Option (Except ContainerException (String × Int)) :=
  (cwAddTokens tokens).map (fun nv =>
    match Action__StrInt nv with
    | Except.ok v => Except.ok v
    | Except.error m =>
      Except.error
        (CustomParser.failure (cwUsage prog)
          (prog ++ ": error: argument -a/--add: " ++ (m ++ "\n"))))

/-! ## Spec-side reference definitions

The following definitions transcribe the spec's words (spec sections 4.1
and 4.4 and the claims built on them); they are compared against the
source-derived definitions above. -/

/-- Spec reading of a selector: given when present and nonempty. -/
def specGiven : Option String → Bool
  | none => false
  | some s => !s.isEmpty

/-- Spec reading of list membership: a user is a member of a named list when
the id occurs in the stored list; an absent list has no members. -/
def specMember (ug : UserGroups) (name : String) (u : Int) : Bool :=
  ((dictLookup ug.groups name).getD []).contains u

/-- The level a group name resolves to, after the one-step
inherit-to-global fallback of spec section 4.1: a missing group reads as
`inherit`, and a level of `inherit` is replaced by the (defaulted) level of
the `"global"` group. -/
def ControlGroups.resolvedLevel (s : ControlGroups) (g : String) :
    ControlGroupOptions :=
  let v := (dictLookup s.groups g).getD ControlGroupOptions.inherit
  if v = ControlGroupOptions.inherit then
    (dictLookup s.groups "global").getD ControlGroupOptions.inherit
  else v

/-- The decision table of spec section 4.1 on a resolved level:
`modplus` admits tier1, tier2 and tier3; `adminplus` admits tier2 and
tier3; `devonly` admits tier3 only; `inherit` surviving the global fallback
admits everyone. -/
def ControlGroups.levelTable (v : ControlGroupOptions) (s : ControlGroups)
    (u : Int) : Bool :=
  match v with
  | ControlGroupOptions.inherit => true
  | ControlGroupOptions.enabled => true
  | ControlGroupOptions.disabled => false
  | ControlGroupOptions.modplus =>
    s.moderators.contains u || s.administrators.contains u || s.developers.contains u
  | ControlGroupOptions.adminplus =>
    s.administrators.contains u || s.developers.contains u
  | ControlGroupOptions.devonly => s.developers.contains u

/-- The group check of the spec: the decision table applied to the resolved
level. -/
def specGroupCheck (s : ControlGroups) (g : String) (u : Int) : Bool :=
  ControlGroups.levelTable (s.resolvedLevel g) s u

/-- The four-step reference authorization decision of spec section 4.4: no
selector given authorizes unconditionally; a blacklisted user is denied; a
whitelisted user is allowed; a passing group check allows; everything else
is denied. -/
def authorizeSpec (st : DevToolsState) (cg cw cb : Option String)
    (u : Int) : Bool :=
  if !specGiven cg && !specGiven cw && !specGiven cb then true
  else if specGiven cb && specMember st.control_blacklists (cb.getD "") u then false
  else if specGiven cw && specMember st.control_whitelists (cw.getD "") u then true
  else if specGiven cg && specGroupCheck st.control_groups (cg.getD "") u then true
  else false

/-- A concrete control-group container used by witnesses. -/
def cgW : ControlGroups :=
  ⟨[1], [2], [3],
   [("global", ControlGroupOptions.enabled),
    ("gadmin", ControlGroupOptions.adminplus)]⟩

/-- A concrete facade state used by witnesses: one extra control group, one
whitelist and one blacklist. -/
def stW : DevToolsState :=
  ⟨cgW, ⟨[("wl", [10])]⟩, ⟨[("bl", [7])]⟩, []⟩

theorem dictLookup_insert_self {κ α : Type} [DecidableEq κ]
    (d : List (κ × α)) (k : κ) (v : α) :
    dictLookup (dictInsert d k v) k = some v := by
  induction d with
  | nil => simp [dictInsert, dictLookup]
  | cons p rest ih =>
    obtain ⟨k', v'⟩ := p
    by_cases h : k' = k <;> simp [dictInsert, dictLookup, h, ih]

theorem dictLookup_insert_ne {κ α : Type} [DecidableEq κ]
    (d : List (κ × α)) (k k' : κ) (v : α) (h : k' ≠ k) :
    dictLookup (dictInsert d k v) k' = dictLookup d k' := by
  induction d with
  | nil => simp [dictInsert, dictLookup, Ne.symm h]
  | cons p rest ih =>
    obtain ⟨k₀, v₀⟩ := p
    by_cases h₀ : k₀ = k
    · subst h₀
      simp [dictInsert, dictLookup, Ne.symm h]
    · simp [dictInsert, dictLookup, h₀, ih]

theorem dictInsert_of_lookup_eq {κ α : Type} [DecidableEq κ]
    (d : List (κ × α)) (k : κ) (v : α) (h : dictLookup d k = some v) :
    dictInsert d k v = d := by
  induction d with
  | nil => simp [dictLookup] at h
  | cons p rest ih =>
    obtain ⟨k₀, v₀⟩ := p
    by_cases h₀ : k₀ = k
    · subst h₀
      simp [dictLookup] at h
      simp [dictInsert, h]
    · simp [dictLookup, h₀] at h
      simp [dictInsert, h₀, ih h]

theorem dictInsert_insert_same {κ α : Type} [DecidableEq κ]
    (d : List (κ × α)) (k : κ) (v w : α) :
    dictInsert (dictInsert d k v) k w = dictInsert d k w := by
  induction d with
  | nil => simp [dictInsert]
  | cons p rest ih =>
    obtain ⟨k₀, v₀⟩ := p
    by_cases h₀ : k₀ = k <;> simp [dictInsert, h₀, ih]

theorem dictLookup_insert_isSome {κ α : Type} [DecidableEq κ]
    (d : List (κ × α)) (k k' : κ) (v : α)
    (h : (dictLookup d k').isSome = true) :
    (dictLookup (dictInsert d k v) k').isSome = true := by
  by_cases hk : k' = k
  · subst hk
    simp [dictLookup_insert_self]
  · rw [dictLookup_insert_ne d k k' v hk]
    exact h

theorem dictLookup_update_isSome {κ α : Type} [DecidableEq κ]
    (e d : List (κ × α)) (k : κ)
    (h : (dictLookup d k).isSome = true) :
    (dictLookup (dictUpdate d e) k).isSome = true := by
  induction e generalizing d with
  | nil => exact h
  | cons p rest ih =>
    exact ih (dictInsert d p.1 p.2) (dictLookup_insert_isSome d p.1 k p.2 h)

theorem dictLookup_update_of_not_mem {κ α : Type} [DecidableEq κ]
    (e d : List (κ × α)) (k : κ) (h : ∀ p ∈ e, p.1 ≠ k) :
    dictLookup (dictUpdate d e) k = dictLookup d k := by
  induction e generalizing d with
  | nil => rfl
  | cons p rest ih =>
    have hp : p.1 ≠ k := h p (List.mem_cons_self p rest)
    have hrest : ∀ q ∈ rest, q.1 ≠ k := fun q hq => h q (List.mem_cons_of_mem p hq)
    show dictLookup (dictUpdate (dictInsert d p.1 p.2) rest) k = dictLookup d k
    rw [ih (dictInsert d p.1 p.2) hrest]
    exact dictLookup_insert_ne d p.1 k p.2 (fun hh => hp hh.symm)

/-! ## Bridge lemmas between the stateful source functions and the pure
spec functions -/

theorem contains_append_or (l₁ l₂ : List Int) (a : Int) :
    (l₁ ++ l₂).contains a = (l₁.contains a || l₂.contains a) := by
  induction l₁ with
  | nil => simp
  | cons x xs ih => by_cases h : a = x <;> simp [List.contains_cons, ih, h]

theorem UserGroups.check_fst_mem (s : UserGroups) (k : String) (u : Int) :
    (s.check k u).1 = specMember s k u := by
  unfold UserGroups.check UserGroups.getItem specMember
  cases h : dictLookup s.groups k <;> simp [h]

theorem ControlGroups.checkDecision_eq_levelTable (v : ControlGroupOptions)
    (s : ControlGroups) (u : Int) :
    ControlGroups.checkDecision v s u = ControlGroups.levelTable v s u := by
  cases v <;> simp [ControlGroups.checkDecision, ControlGroups.levelTable,
    contains_append_or, Bool.or_assoc]

theorem ControlGroups.check_fst_table (s : ControlGroups) (g : String) (u : Int) :
    (s.check g u).1 = specGroupCheck s g u := by
  unfold ControlGroups.check ControlGroups.getItem specGroupCheck
    ControlGroups.resolvedLevel
  cases h1 : dictLookup s.groups g with
  | some v =>
    by_cases hv : v = ControlGroupOptions.inherit
    · subst hv
      cases h2 : dictLookup s.groups "global" with
      | some w =>
        simp [h1, h2, ControlGroups.checkDecision_eq_levelTable]
      | none =>
        simp [h1, h2, ControlGroups.checkDecision, ControlGroups.levelTable]
    · simp [h1, hv, ControlGroups.checkDecision_eq_levelTable]
  | none =>
    by_cases hg : g = "global"
    · subst hg
      simp [h1, dictLookup_insert_self, ControlGroups.checkDecision,
        ControlGroups.levelTable]
    · have hne : dictLookup
          (dictInsert s.groups g ControlGroupOptions.inherit) "global" =
          dictLookup s.groups "global" :=
        dictLookup_insert_ne s.groups g "global" ControlGroupOptions.inherit
          (fun hh => hg hh.symm)
      cases h2 : dictLookup s.groups "global" with
      | some w =>
        simp [h1, hne, h2, ControlGroups.checkDecision_eq_levelTable,
          ControlGroups.levelTable]
      | none =>
        simp [h1, hne, h2, ControlGroups.checkDecision,
          ControlGroups.levelTable]

theorem specGiven_eq_truthy (o : Option String) : specGiven o = truthy o := by
  cases o <;> rfl

/-! ## Claim theorems -/

/-- C1: For every user id and every combination of selector names, the
authorization decision of `DevTools._check` equals the four-step reference
definition: all selectors absent or empty authorizes unconditionally;
otherwise a given blacklist holding the user denies regardless of whitelist
or group; otherwise a given whitelist holding the user allows regardless of
group; otherwise a given passing group check allows; otherwise the call is
denied — in particular an invocation specifying only a blacklist the user
is not on is denied by the fallthrough. -/
theorem C1_check_matches_reference (st : DevToolsState)
    (cg cw cb : Option String) (u : Int) :
    (st.check cg cw cb u).1 = authorizeSpec st cg cw cb u ∧
    (truthy cg = false → truthy cw = false → truthy cb = true →
      specMember st.control_blacklists (cb.getD "") u = false →
      (st.check cg cw cb u).1 = false) := by
  have main : (st.check cg cw cb u).1 = authorizeSpec st cg cw cb u := by
    by_cases hb : specMember st.control_blacklists (cb.getD "") u = true <;>
    by_cases hw : specMember st.control_whitelists (cw.getD "") u = true <;>
    by_cases hg : specGroupCheck st.control_groups (cg.getD "") u = true <;>
    cases hcg : truthy cg <;> cases hcw : truthy cw <;> cases hcb : truthy cb <;>
      simp [DevToolsState.check, authorizeSpec, specGiven_eq_truthy,
        hcg, hcw, hcb, UserGroups.check_fst_mem, ControlGroups.check_fst_table,
        hb, hw, hg]
  refine ⟨main, fun hcg hcw hcb hmem => ?_⟩
  rw [main]
  simp [authorizeSpec, specGiven_eq_truthy, hcg, hcw, hcb, hmem]

/-- Witness for C1: on the concrete state, a call specifying only a
blacklist that user 5 is not on is denied by the fallthrough. -/
theorem C1_check_matches_reference_witness :
    (stW.check none none (some "bl") 5).1 = false :=
  (C1_check_matches_reference stW none none (some "bl") 5).2
    rfl rfl rfl (by decide)

/-- C2: `ControlGroups.check` follows the decision table on the level
resolved after the inherit-to-global fallback: `enabled` admits every user,
`disabled` no user, `modplus` exactly the union of the three tiers,
`adminplus` exactly administrators and developers, `devonly` exactly
developers, and `inherit` surviving the fallback admits every user. -/
theorem C2_check_decision_table (s : ControlGroups) (g : String) (u : Int) :
    (s.resolvedLevel g = ControlGroupOptions.enabled → (s.check g u).1 = true) ∧
    (s.resolvedLevel g = ControlGroupOptions.disabled → (s.check g u).1 = false) ∧
    (s.resolvedLevel g = ControlGroupOptions.modplus →
      ((s.check g u).1 = true ↔
        u ∈ s.moderators ∨ u ∈ s.administrators ∨ u ∈ s.developers)) ∧
    (s.resolvedLevel g = ControlGroupOptions.adminplus →
      ((s.check g u).1 = true ↔ u ∈ s.administrators ∨ u ∈ s.developers)) ∧
    (s.resolvedLevel g = ControlGroupOptions.devonly →
      ((s.check g u).1 = true ↔ u ∈ s.developers)) ∧
    (s.resolvedLevel g = ControlGroupOptions.inherit → (s.check g u).1 = true) := by
  have h := ControlGroups.check_fst_table s g u
  unfold specGroupCheck at h
  refine ⟨fun hv => ?_, fun hv => ?_, fun hv => ?_, fun hv => ?_,
    fun hv => ?_, fun hv => ?_⟩ <;>
    rw [h, hv] <;> simp [ControlGroups.levelTable, or_assoc]

/-- Witness for C2: on the concrete container, group `gadmin` resolves to
`adminplus` and admits the administrator user 2. -/
theorem C2_check_decision_table_witness :
    (cgW.check "gadmin" 2).1 = true :=
  ((C2_check_decision_table cgW "gadmin" 2).2.2.2.1 (by decide)).2
    (Or.inl (by decide))

/-- C4: whenever reading a group yields `inherit`, checking that group gives
exactly the same boolean as checking the reserved `"global"` group; the
fallback is a single level of indirection. -/
theorem C4_inherit_equals_global (s : ControlGroups) (g : String) (u : Int)
    (h : (s.getItem g).1 = ControlGroupOptions.inherit) :
    (s.check g u).1 = (s.check "global" u).1 := by
  have hres : (dictLookup s.groups g).getD ControlGroupOptions.inherit =
      ControlGroupOptions.inherit := by
    unfold ControlGroups.getItem at h
    cases h1 : dictLookup s.groups g <;> simp [h1] at h <;> simp [h1, h]
  rw [ControlGroups.check_fst_table, ControlGroups.check_fst_table]
  unfold specGroupCheck ControlGroups.resolvedLevel
  rw [hres]
  by_cases hG : (dictLookup s.groups "global").getD ControlGroupOptions.inherit =
      ControlGroupOptions.inherit <;> simp [hG]

/-- Witness for C4: the unconfigured group `mygroup` reads as `inherit` on
the concrete container and checks like `"global"`. -/
theorem C4_inherit_equals_global_witness :
    (cgW.check "mygroup" 5).1 = (cgW.check "global" 5).1 :=
  C4_inherit_equals_global cgW "mygroup" 5 (by decide)

theorem ControlGroups.ensureDefaultValidity_eq_find
    (gl : List (String × ControlGroupOptions)) :
    ControlGroups.ensureDefaultValidity gl =
      (match gl.find? (fun p => !charsAllowed p.1) with
       | some p => Except.error
           (p.1 ++ " must only include lowercase alphanumericals and underscores")
       | none => Except.ok ()) := by
  induction gl with
  | nil => rfl
  | cons p rest ih =>
    obtain ⟨k, v⟩ := p
    by_cases hk : charsAllowed k <;>
      simp [ControlGroups.ensureDefaultValidity, ensureCharsAllowed,
        List.find?_cons, hk, ih]

theorem ControlGroups.getItem_preserves_isSome (s : ControlGroups)
    (k k' : String) (h : (dictLookup s.groups k').isSome = true) :
    (dictLookup (s.getItem k).2.groups k').isSome = true := by
  unfold ControlGroups.getItem
  cases h1 : dictLookup s.groups k with
  | some v => simpa [h1] using h
  | none =>
    simpa [h1] using
      dictLookup_insert_isSome s.groups k k' ControlGroupOptions.inherit h

theorem ControlGroups.check_preserves_isSome (s : ControlGroups)
    (g k' : String) (u : Int) (h : (dictLookup s.groups k').isSome = true) :
    (dictLookup (s.check g u).2.groups k').isSome = true := by
  unfold ControlGroups.check
  by_cases h1 : (s.getItem g).1 = ControlGroupOptions.inherit
  · simpa [h1] using
      ControlGroups.getItem_preserves_isSome (s.getItem g).2 "global" k'
        (ControlGroups.getItem_preserves_isSome s g k' h)
  · simpa [h1] using ControlGroups.getItem_preserves_isSome s g k' h

theorem foldl_setItem_preserves_isSome (names : List String)
    (c : ControlGroups) (v : ControlGroupOptions) (k' : String)
    (h : (dictLookup c.groups k').isSome = true) :
    (dictLookup (names.foldl (fun s n => s.setItem n v) c).groups k').isSome
      = true := by
  induction names generalizing c with
  | nil => exact h
  | cons n rest ih =>
    exact ih (c.setItem n v) (dictLookup_insert_isSome c.groups n k' v h)

/-- C3 counterexample: the name My-Group violates the charset rule, yet
setting a group level under that name succeeds and stores the binding — the
set operation does not enforce the charset restriction claimed for
mutation. -/
theorem C3_mutation_unvalidated_counterexample :
    charsAllowed "My-Group" = false ∧
    dictLookup ((cgW.setItem "My-Group" ControlGroupOptions.enabled).groups)
      "My-Group" = some ControlGroupOptions.enabled := by
  constructor
  · decide
  · rfl

/-- C3 (amended): the charset restriction on group names is enforced at
construction — `_ensure_default_validity` raises exactly on the first
binding whose name has a disallowed character, so a container that
constructs successfully holds only charset-valid names, with My-Group
failing and my_group_1 passing the check — while the set operation
validates only the level value and stores any name unchecked. -/
theorem C3_charset_validation :
    (∀ gl : List (String × ControlGroupOptions),
      ControlGroups.ensureDefaultValidity gl =
        (match gl.find? (fun p => !charsAllowed p.1) with
         | some p => Except.error
             (p.1 ++ " must only include lowercase alphanumericals and underscores")
         | none => Except.ok ())) ∧
    (∀ (m a d : List Int) (df : List (String × ControlGroupOptions))
       (s : ControlGroups), ControlGroups.init m a d df = Except.ok s →
      ∀ p ∈ s.groups, charsAllowed p.1 = true) ∧
    charsAllowed "My-Group" = false ∧
    charsAllowed "my_group_1" = true ∧
    (∀ (c : ControlGroups) (k : String) (v : ControlGroupOptions),
      dictLookup (c.setItem k v).groups k = some v) := by
  refine ⟨ControlGroups.ensureDefaultValidity_eq_find, ?_, by decide, by decide,
    fun c k v => dictLookup_insert_self c.groups k v⟩
  intro m a d df s hinit
  unfold ControlGroups.init at hinit
  by_cases hdf : df.isEmpty
  · have hdf' : df = [] := by simpa [List.isEmpty_iff] using hdf
    subst hdf'
    simp only [List.isEmpty_nil, if_true] at hinit
    cases hinit
    intro p hp
    simp only [dictUpdate, List.foldl_nil] at hp
    simp only [List.mem_singleton] at hp
    subst hp
    decide
  · simp only [hdf, if_false] at hinit
    cases hvalid : ControlGroups.ensureDefaultValidity
        (dictUpdate [("global", ControlGroupOptions.enabled)] df) with
    | error e => rw [hvalid] at hinit; cases hinit
    | ok _ =>
      rw [hvalid] at hinit
      cases hinit
      intro p hp
      rw [ControlGroups.ensureDefaultValidity_eq_find] at hvalid
      cases hfind : List.find?
          (fun p => !charsAllowed p.1)
          (dictUpdate [("global", ControlGroupOptions.enabled)] df) with
      | some q => rw [hfind] at hvalid; cases hvalid
      | none =>
        have := List.find?_eq_none.mp hfind p hp
        simpa using this

/-- Witness for C3: construction with a valid default succeeds and the
supplied name passes the charset check. -/
theorem C3_charset_validation_witness : charsAllowed "abc" = true :=
  C3_charset_validation.2.1 [] [] [] [("abc", ControlGroupOptions.enabled)]
    ⟨[], [], [],
     [("global", ControlGroupOptions.enabled), ("abc", ControlGroupOptions.enabled)]⟩
    rfl ("abc", ControlGroupOptions.enabled) (by decide)

/-- C5: the reserved group named global always exists: it is present after
every successful construction with level `enabled` unless the supplied
defaults override it, and no operation deletes any group, so lazy reads,
level writes, checks and both edit commands all preserve its presence. -/
theorem C5_global_group_invariant :
    (∀ (m a d : List Int) (df : List (String × ControlGroupOptions))
       (s : ControlGroups), ControlGroups.init m a d df = Except.ok s →
      (dictLookup s.groups "global").isSome = true) ∧
    (∀ (m a d : List Int) (df : List (String × ControlGroupOptions))
       (s : ControlGroups), ControlGroups.init m a d df = Except.ok s →
      (∀ p ∈ df, p.1 ≠ "global") →
      dictLookup s.groups "global" = some ControlGroupOptions.enabled) ∧
    (∀ (c : ControlGroups) (k k' : String),
      (dictLookup c.groups k').isSome = true →
      (dictLookup (c.getItem k).2.groups k').isSome = true) ∧
    (∀ (c : ControlGroups) (k k' : String) (v : ControlGroupOptions),
      (dictLookup c.groups k').isSome = true →
      (dictLookup (c.setItem k v).groups k').isSome = true) ∧
    (∀ (c : ControlGroups) (g : String) (u : Int),
      (dictLookup c.groups "global").isSome = true →
      (dictLookup (c.check g u).2.groups "global").isSome = true) ∧
    (∀ (st st' : DevToolsState) (g v : String),
      (dictLookup st.control_groups.groups "global").isSome = true →
      DevToolsState.controlGroupsEdit st g v = Except.ok st' →
      (dictLookup st'.control_groups.groups "global").isSome = true) ∧
    (∀ (st st' : DevToolsState) (v : String),
      (dictLookup st.control_groups.groups "global").isSome = true →
      DevToolsState.controlGroupsEditAll st v = Except.ok st' →
      (dictLookup st'.control_groups.groups "global").isSome = true) := by
  have hbase : (dictLookup
      [("global", ControlGroupOptions.enabled)] "global").isSome = true := by
    decide
  refine ⟨?_, ?_, ?_, ?_, ?_, ?_, ?_⟩
  · intro m a d df s hinit
    unfold ControlGroups.init at hinit
    by_cases hdf : df.isEmpty
    · simp only [hdf, if_true] at hinit
      cases hinit
      exact dictLookup_update_isSome df _ "global" hbase
    · simp only [hdf, if_false] at hinit
      cases hvalid : ControlGroups.ensureDefaultValidity
          (dictUpdate [("global", ControlGroupOptions.enabled)] df) with
      | error e => rw [hvalid] at hinit; cases hinit
      | ok _ =>
        rw [hvalid] at hinit
        cases hinit
        exact dictLookup_update_isSome df _ "global" hbase
  · intro m a d df s hinit hdf0
    have hgroups : s.groups =
        dictUpdate [("global", ControlGroupOptions.enabled)] df := by
      unfold ControlGroups.init at hinit
      by_cases hdf : df.isEmpty
      · simp only [hdf, if_true] at hinit
        cases hinit
        rfl
      · simp only [hdf, if_false] at hinit
        cases hvalid : ControlGroups.ensureDefaultValidity
            (dictUpdate [("global", ControlGroupOptions.enabled)] df) with
        | error e => rw [hvalid] at hinit; cases hinit
        | ok _ => rw [hvalid] at hinit; cases hinit; rfl
    rw [hgroups, dictLookup_update_of_not_mem df _ "global" hdf0]
    rfl
  · exact fun c k k' h => ControlGroups.getItem_preserves_isSome c k k' h
  · exact fun c k k' v h => dictLookup_insert_isSome c.groups k k' v h
  · exact fun c g u h => ControlGroups.check_preserves_isSome c g "global" u h
  · intro st st' g v h hedit
    unfold DevToolsState.controlGroupsEdit at hedit
    cases hval : ControlGroupOptions.ofString v with
    | none => rw [hval] at hedit; cases hedit
    | some lvl =>
      rw [hval] at hedit
      cases hlook : dictLookup st.control_groups.groups g with
      | none => rw [hlook] at hedit; cases hedit
      | some w =>
        rw [hlook] at hedit
        cases hedit
        exact dictLookup_insert_isSome st.control_groups.groups g "global" lvl h
  · intro st st' v h hedit
    unfold DevToolsState.controlGroupsEditAll at hedit
    cases hval : ControlGroupOptions.ofString v with
    | none => rw [hval] at hedit; cases hedit
    | some lvl =>
      rw [hval] at hedit
      cases hedit
      exact foldl_setItem_preserves_isSome _ st.control_groups lvl "global" h

/-- Witness for C5: a lazy read of a fresh group keeps global present in
the concrete container. -/
theorem C5_global_group_invariant_witness :
    (dictLookup ((cgW.getItem "newgroup").2.groups) "global").isSome = true :=
  C5_global_group_invariant.2.2.1 cgW "newgroup" "global" (by decide)

/-- C6: opening a tracking session hands out exactly the token
`userid@guildid`; entering appends exactly that token to the active list;
an enter/exit pair restores the occurrence count of every token (exit
removes exactly one occurrence); with two overlapping sessions of the same
pair one exit removes only one of the two occurrences; and the tracked call
exits the session whether the wrapped command returns or raises. -/
theorem C6_session_enter_exit (t : Tracker) (g u : Int) (ds e x : String)
    (call : Except Unit Unit) :
    (t.openSession g u ds).2 = toString u ++ "@" ++ toString g ∧
    (t.sessionEnter e).active = t.active ++ [e] ∧
    ((t.sessionEnter e).sessionExit e).active.count x = t.active.count x ∧
    (((t.sessionEnter e).sessionEnter e).sessionExit e).active.count e =
      t.active.count e + 1 ∧
    (t.trackedCall e call).2 = (t.sessionEnter e).sessionExit e := by
  refine ⟨rfl, rfl, ?_, ?_, ?_⟩
  · show ((t.active ++ [e]).erase e).count x = t.active.count x
    by_cases hx : x = e
    · subst hx
      rw [List.count_erase_self, List.count_append]
      simp
    · rw [List.count_erase_of_ne hx, List.count_append]
      simp [List.count_singleton', hx]
  · show ((t.active ++ [e] ++ [e]).erase e).count e = t.active.count e + 1
    rw [List.count_erase_self, List.count_append, List.count_append]
    simp
  · unfold Tracker.trackedCall
    cases call <;> rfl

/-- The bounded-history invariant behind C7: starting from a history of at
most 15 entries, a sequence of opens leaves exactly the rightmost 15
entries of the full appended log. -/
theorem Tracker.openAll_history (opens : List (Int × Int × String)) :
    ∀ t : Tracker, t.history.length ≤ 15 →
    (t.openAll opens).history =
      (t.history ++ opens.map Tracker.histEntry).drop
        (t.history.length + opens.length - 15) := by
  induction opens with
  | nil =>
    intro t ht
    simp [Tracker.openAll, Nat.sub_eq_zero_of_le ht]
  | cons o rest ih =>
    intro t ht
    have hstep : t.openAll (o :: rest) =
        Tracker.openAll (t.openSession o.1 o.2.1 o.2.2).1 rest := rfl
    have hhist : (t.openSession o.1 o.2.1 o.2.2).1.history =
        Tracker.pushHistory t.history (Tracker.histEntry o) := rfl
    rw [hstep]
    simp only [List.map_cons, List.length_cons]
    by_cases hlt : t.history.length < 15
    · have hlen : (t.openSession o.1 o.2.1 o.2.2).1.history =
          t.history ++ [Tracker.histEntry o] := by
        rw [hhist]; unfold Tracker.pushHistory; simp [hlt]
      have hle : (t.openSession o.1 o.2.1 o.2.2).1.history.length ≤ 15 := by
        rw [hlen, List.length_append, List.length_singleton]; omega
      have hrec := ih (t.openSession o.1 o.2.1 o.2.2).1 hle
      rw [hlen] at hrec
      rw [hrec]
      have hA : (t.history ++ [Tracker.histEntry o]).length + rest.length - 15
          = t.history.length + (rest.length + 1) - 15 := by
        rw [List.length_append, List.length_singleton]; omega
      rw [hA, List.append_assoc, List.singleton_append]
    · have h15 : t.history.length = 15 := by omega
      obtain ⟨hd, tl, hcons⟩ : ∃ hd tl, t.history = hd :: tl := by
        cases hh : t.history with
        | nil => rw [hh] at h15; simp at h15
        | cons a b => exact ⟨a, b, rfl⟩
      have htl : tl.length = 14 := by
        have h' : tl.length + 1 = 15 := by
          have h'' := h15
          rw [hcons] at h''
          simpa using h''
        omega
      have hlen : (t.openSession o.1 o.2.1 o.2.2).1.history =
          tl ++ [Tracker.histEntry o] := by
        rw [hhist]; unfold Tracker.pushHistory
        simp [hlt, hcons, htl]
      have hle : (t.openSession o.1 o.2.1 o.2.2).1.history.length ≤ 15 := by
        rw [hlen, List.length_append, List.length_singleton, htl]
      have hrec := ih (t.openSession o.1 o.2.1 o.2.2).1 hle
      rw [hlen] at hrec
      rw [hrec, hcons]
      have hA : (tl ++ [Tracker.histEntry o]).length + rest.length - 15
          = rest.length := by
        rw [List.length_append, List.length_singleton, htl]; omega
      have hB : (hd :: tl).length + (rest.length + 1) - 15 = rest.length + 1 := by
        rw [List.length_cons, htl]
        omega
      rw [hA, hB, List.cons_append, List.drop_succ_cons, List.append_assoc,
        List.singleton_append]

/-- C7: from a fresh tracker, any sequence of opens leaves a history that
is exactly the 15 most recent entries — the oldest entries beyond capacity
are evicted first-in-first-out — and its length never exceeds 15. -/
theorem C7_history_bounded (opens : List (Int × Int × String)) :
    (Tracker.empty.openAll opens).history =
      (opens.map Tracker.histEntry).drop (opens.length - 15) ∧
    (Tracker.empty.openAll opens).history.length ≤ 15 := by
  have h := Tracker.openAll_history opens Tracker.empty (by simp [Tracker.empty])
  have h' : (Tracker.empty.openAll opens).history =
      (opens.map Tracker.histEntry).drop (opens.length - 15) := by
    simpa [Tracker.empty] using h
  refine ⟨h', ?_⟩
  rw [h', List.length_drop, List.length_map]
  omega

/-- C8: on an existing membership list, adding an absent user id and then
removing it restores the container exactly; adding a present id fails with
the already-present error; removing an absent id fails with the not-present
error. -/
theorem C8_add_remove_round_trip (ug : UserGroups) (name : String)
    (l : List Int) (u : Int) (h : dictLookup ug.groups name = some l) :
    (u ∉ l →
      UserGroups.addUser ug name u =
        Except.ok ⟨dictInsert ug.groups name (l ++ [u])⟩ ∧
      UserGroups.removeUser ⟨dictInsert ug.groups name (l ++ [u])⟩ name u =
        Except.ok ug) ∧
    (u ∈ l →
      UserGroups.addUser ug name u = Except.error
        ("whitelist " ++ name ++ " already contains the userid " ++ toString u)) ∧
    (u ∉ l →
      UserGroups.removeUser ug name u = Except.error
        ("whitelist " ++ name ++ " does not contains the userid " ++ toString u)) := by
  refine ⟨fun hu => ⟨?_, ?_⟩, fun hu => ?_, fun hu => ?_⟩
  · unfold UserGroups.addUser
    rw [h]
    simp [hu]
  · unfold UserGroups.removeUser
    show (match dictLookup (dictInsert ug.groups name (l ++ [u])) name with
      | none => _ | some l' => _) = _
    rw [dictLookup_insert_self]
    have hmem : (l ++ [u]).contains u = true := by simp
    have herase : (l ++ [u]).erase u = l := by
      rw [List.erase_append_right [u] hu, List.erase_cons_head]
      simp
    simp only [hmem, if_true, herase]
    rw [dictInsert_insert_same, dictInsert_of_lookup_eq ug.groups name l h]
  · unfold UserGroups.addUser
    rw [h]
    simp [hu]
  · unfold UserGroups.removeUser
    rw [h]
    simp [hu]

/-- Witness for C8: adding the absent id 5 to the concrete whitelist
succeeds and appends it. -/
theorem C8_add_remove_round_trip_witness :
    UserGroups.addUser ⟨[("wl9", [1, 2])]⟩ "wl9" 5 =
      Except.ok ⟨[("wl9", [1, 2, 5])]⟩ :=
  ((C8_add_remove_round_trip ⟨[("wl9", [1, 2])]⟩ "wl9" [1, 2] 5 rfl).1
    (by decide)).1

/-- C9: any token sequence selecting the whitelist-add route whose second
argument token is not integer-parseable yields the structured container
failure — not a process exit — and one of its ordered diagnostic strings
contains the message about argument 2 needing to be an integer. -/
theorem C9_strint_coercion_failure (prog : String) (tokens : List String)
    (name val : String) (h1 : cwAddTokens tokens = some (name, val))
    (h2 : pyIntParse val = none) :
    ∃ exc : ContainerException,
      parseCwAdd prog tokens = some (Except.error exc) ∧
      ∃ m ∈ exc.messages, ∃ pre post : String,
        m = pre ++ "argument 2 must be an integer" ++ post := by
  refine ⟨CustomParser.failure (cwUsage prog)
    (prog ++ ": error: argument -a/--add: " ++
      ("argument 2 must be an integer" ++ "\n")), ?_, ?_⟩
  · simp [parseCwAdd, h1, Action__StrInt, h2]
  · refine ⟨prog ++ ": error: argument -a/--add: " ++
      ("argument 2 must be an integer" ++ "\n"), ?_,
      prog ++ ": error: argument -a/--add: ", "\n", ?_⟩
    · simp [CustomParser.failure]
    · simp [String.append_assoc]

/-- Witness for C9: the concrete token sequence from the spec produces the
structured failure whose diagnostics carry the coercion message. -/
theorem C9_strint_coercion_failure_witness :
    ∃ exc : ContainerException,
      parseCwAdd "devtools" ["cw", "-a", "vips", "not_an_int"] =
        some (Except.error exc) ∧
      ∃ m ∈ exc.messages, ∃ pre post : String,
        m = pre ++ "argument 2 must be an integer" ++ post :=
  C9_strint_coercion_failure "devtools" ["cw", "-a", "vips", "not_an_int"]
    "vips" "not_an_int" (by decide) (by decide)

theorem UserGroups.check_groups_id_or_insert (s : UserGroups) (k : String) (u : Int) :
    (s.check k u).2.groups = s.groups ∨
    (dictLookup s.groups k = none ∧
      (s.check k u).2.groups = dictInsert s.groups k []) := by
  unfold UserGroups.check UserGroups.getItem
  cases h1 : dictLookup s.groups k <;> simp [h1]

theorem UserGroups.check_keeps_some (s : UserGroups) (k : String)
    (u : Int) (n : String) (l : List Int)
    (h : dictLookup s.groups n = some l) :
    dictLookup (s.check k u).2.groups n = some l := by
  rcases UserGroups.check_groups_id_or_insert s k u with hc | ⟨hk, hc⟩
  · rw [hc]; exact h
  · rw [hc]
    have hne : n ≠ k := by intro he; rw [he, hk] at h; cases h
    rw [dictLookup_insert_ne s.groups k n [] hne]; exact h

theorem ControlGroups.getItem_preserves_some (s : ControlGroups)
    (k n : String) (v : ControlGroupOptions)
    (h : dictLookup s.groups n = some v) :
    dictLookup (s.getItem k).2.groups n = some v := by
  unfold ControlGroups.getItem
  cases h1 : dictLookup s.groups k with
  | some w => simpa [h1] using h
  | none =>
    have hne : n ≠ k := by intro he; rw [he, h1] at h; cases h
    simpa [h1] using
      (dictLookup_insert_ne s.groups k n ControlGroupOptions.inherit hne).trans h

theorem ControlGroups.check_keeps_some_level (s : ControlGroups)
    (g n : String) (v : ControlGroupOptions) (u : Int)
    (h : dictLookup s.groups n = some v) :
    dictLookup (s.check g u).2.groups n = some v := by
  unfold ControlGroups.check
  by_cases h1 : (s.getItem g).1 = ControlGroupOptions.inherit
  · simpa [h1] using
      ControlGroups.getItem_preserves_some (s.getItem g).2 "global" n v
        (ControlGroups.getItem_preserves_some s g n v h)
  · simpa [h1] using ControlGroups.getItem_preserves_some s g n v h

theorem ControlGroups.check_groups_id_or_insert_glob (s : ControlGroups) (g : String)
    (u : Int) (hglob : (dictLookup s.groups "global").isSome = true) :
    (s.check g u).2.groups = s.groups ∨
    (dictLookup s.groups g = none ∧
      (s.check g u).2.groups =
        dictInsert s.groups g ControlGroupOptions.inherit) := by
  obtain ⟨w, hw⟩ := Option.isSome_iff_exists.mp hglob
  unfold ControlGroups.check ControlGroups.getItem
  cases h1 : dictLookup s.groups g with
  | some v =>
    by_cases hv : v = ControlGroupOptions.inherit
    · subst hv; simp [h1, hw]
    · simp [h1, hv]
  | none =>
    have hne : g ≠ "global" := by
      intro he; rw [he, hw] at h1; cases h1
    have hglob' : dictLookup
        (dictInsert s.groups g ControlGroupOptions.inherit) "global" = some w := by
      rw [dictLookup_insert_ne s.groups g "global" ControlGroupOptions.inherit
        (fun hh => hne hh.symm)]
      exact hw
    simp [h1, hglob']

theorem ControlGroups.getItem_snd_fields (s : ControlGroups) (k : String) :
    (s.getItem k).2.moderators = s.moderators ∧
    (s.getItem k).2.administrators = s.administrators ∧
    (s.getItem k).2.developers = s.developers := by
  unfold ControlGroups.getItem
  cases h1 : dictLookup s.groups k <;> simp [h1]

theorem ControlGroups.check_snd_fields (s : ControlGroups) (g : String)
    (u : Int) :
    (s.check g u).2.moderators = s.moderators ∧
    (s.check g u).2.administrators = s.administrators ∧
    (s.check g u).2.developers = s.developers := by
  unfold ControlGroups.check
  by_cases h1 : (s.getItem g).1 = ControlGroupOptions.inherit
  · have A := ControlGroups.getItem_snd_fields (s.getItem g).2 "global"
    have B := ControlGroups.getItem_snd_fields s g
    refine ⟨?_, ?_, ?_⟩ <;>
      simp [h1, A.1, A.2.1, A.2.2, B.1, B.2.1, B.2.2]
  · have B := ControlGroups.getItem_snd_fields s g
    refine ⟨?_, ?_, ?_⟩ <;> simp [h1, B.1, B.2.1, B.2.2]

theorem DevToolsState.check_snd_trackers (st : DevToolsState)
    (cg cw cb : Option String) (u : Int) :
    (st.check cg cw cb u).2.trackers = st.trackers := by
  cases hcg : truthy cg <;> cases hcw : truthy cw <;> cases hcb : truthy cb <;>
    by_cases hb : (st.control_blacklists.check (cb.getD "") u).1 = true <;>
    by_cases hw : (st.control_whitelists.check (cw.getD "") u).1 = true <;>
      simp [DevToolsState.check, hcg, hcw, hcb, hb, hw]

theorem DevToolsState.check_snd_control_groups (st : DevToolsState)
    (cg cw cb : Option String) (u : Int) :
    (st.check cg cw cb u).2.control_groups = st.control_groups ∨
    (truthy cg = true ∧ (st.check cg cw cb u).2.control_groups =
      (st.control_groups.check (cg.getD "") u).2) := by
  cases hcg : truthy cg <;> cases hcw : truthy cw <;> cases hcb : truthy cb <;>
    by_cases hb : (st.control_blacklists.check (cb.getD "") u).1 = true <;>
    by_cases hw : (st.control_whitelists.check (cw.getD "") u).1 = true <;>
      simp [DevToolsState.check, hcg, hcw, hcb, hb, hw]

theorem DevToolsState.check_snd_control_whitelists (st : DevToolsState)
    (cg cw cb : Option String) (u : Int) :
    (st.check cg cw cb u).2.control_whitelists = st.control_whitelists ∨
    (truthy cw = true ∧ (st.check cg cw cb u).2.control_whitelists =
      (st.control_whitelists.check (cw.getD "") u).2) := by
  cases hcg : truthy cg <;> cases hcw : truthy cw <;> cases hcb : truthy cb <;>
    by_cases hb : (st.control_blacklists.check (cb.getD "") u).1 = true <;>
    by_cases hw : (st.control_whitelists.check (cw.getD "") u).1 = true <;>
      simp [DevToolsState.check, hcg, hcw, hcb, hb, hw]

theorem DevToolsState.check_snd_control_blacklists (st : DevToolsState)
    (cg cw cb : Option String) (u : Int) :
    (st.check cg cw cb u).2.control_blacklists = st.control_blacklists ∨
    (truthy cb = true ∧ (st.check cg cw cb u).2.control_blacklists =
      (st.control_blacklists.check (cb.getD "") u).2) := by
  cases hcg : truthy cg <;> cases hcw : truthy cw <;> cases hcb : truthy cb <;>
    by_cases hb : (st.control_blacklists.check (cb.getD "") u).1 = true <;>
    by_cases hw : (st.control_whitelists.check (cw.getD "") u).1 = true <;>
      simp [DevToolsState.check, hcg, hcw, hcb, hb, hw]

/-- C10: evaluating the authorization decision of `DevTools._check` changes
no state beyond lazy creation of at most the named missing entries with
their defaults: the trackers and the role tiers are untouched, every
existing group binding and list binding keeps its value, entries not named
by the call are unchanged, and an entry absent before the call is
afterwards either still absent or present with its creation default —
`inherit` for a group, the empty list for a whitelist or blacklist.  The
reserved global group is assumed present, as construction guarantees. -/
theorem C10_check_frame_effects (st : DevToolsState) (cg cw cb : Option String)
    (u : Int)
    (hglob : (dictLookup st.control_groups.groups "global").isSome = true) :
    (st.check cg cw cb u).2.trackers = st.trackers ∧
    (st.check cg cw cb u).2.control_groups.moderators =
      st.control_groups.moderators ∧
    (st.check cg cw cb u).2.control_groups.administrators =
      st.control_groups.administrators ∧
    (st.check cg cw cb u).2.control_groups.developers =
      st.control_groups.developers ∧
    (∀ n v, dictLookup st.control_groups.groups n = some v →
      dictLookup (st.check cg cw cb u).2.control_groups.groups n = some v) ∧
    (∀ n l, dictLookup st.control_whitelists.groups n = some l →
      dictLookup (st.check cg cw cb u).2.control_whitelists.groups n = some l) ∧
    (∀ n l, dictLookup st.control_blacklists.groups n = some l →
      dictLookup (st.check cg cw cb u).2.control_blacklists.groups n = some l) ∧
    (∀ n, some n ≠ cg →
      dictLookup (st.check cg cw cb u).2.control_groups.groups n =
        dictLookup st.control_groups.groups n) ∧
    (∀ n, some n ≠ cw →
      dictLookup (st.check cg cw cb u).2.control_whitelists.groups n =
        dictLookup st.control_whitelists.groups n) ∧
    (∀ n, some n ≠ cb →
      dictLookup (st.check cg cw cb u).2.control_blacklists.groups n =
        dictLookup st.control_blacklists.groups n) ∧
    (∀ n, dictLookup st.control_groups.groups n = none →
      dictLookup (st.check cg cw cb u).2.control_groups.groups n = none ∨
      dictLookup (st.check cg cw cb u).2.control_groups.groups n =
        some ControlGroupOptions.inherit) ∧
    (∀ n, dictLookup st.control_whitelists.groups n = none →
      dictLookup (st.check cg cw cb u).2.control_whitelists.groups n = none ∨
      dictLookup (st.check cg cw cb u).2.control_whitelists.groups n = some []) ∧
    (∀ n, dictLookup st.control_blacklists.groups n = none →
      dictLookup (st.check cg cw cb u).2.control_blacklists.groups n = none ∨
      dictLookup (st.check cg cw cb u).2.control_blacklists.groups n = some []) := by
  have Hg := DevToolsState.check_snd_control_groups st cg cw cb u
  have Hw := DevToolsState.check_snd_control_whitelists st cg cw cb u
  have Hb := DevToolsState.check_snd_control_blacklists st cg cw cb u
  refine ⟨DevToolsState.check_snd_trackers st cg cw cb u,
    ?_, ?_, ?_, ?_, ?_, ?_, ?_, ?_, ?_, ?_, ?_, ?_⟩
  · rcases Hg with hc | ⟨-, hc⟩
    · rw [hc]
    · rw [hc]
      exact (ControlGroups.check_snd_fields st.control_groups (cg.getD "") u).1
  · rcases Hg with hc | ⟨-, hc⟩
    · rw [hc]
    · rw [hc]
      exact (ControlGroups.check_snd_fields st.control_groups (cg.getD "") u).2.1
  · rcases Hg with hc | ⟨-, hc⟩
    · rw [hc]
    · rw [hc]
      exact (ControlGroups.check_snd_fields st.control_groups (cg.getD "") u).2.2
  · intro n v h
    rcases Hg with hc | ⟨-, hc⟩
    · rw [hc]; exact h
    · rw [hc]
      exact ControlGroups.check_keeps_some_level st.control_groups (cg.getD "") n v u h
  · intro n l h
    rcases Hw with hc | ⟨-, hc⟩
    · rw [hc]; exact h
    · rw [hc]
      exact UserGroups.check_keeps_some st.control_whitelists (cw.getD "") u n l h
  · intro n l h
    rcases Hb with hc | ⟨-, hc⟩
    · rw [hc]; exact h
    · rw [hc]
      exact UserGroups.check_keeps_some st.control_blacklists (cb.getD "") u n l h
  · intro n hn
    rcases Hg with hc | ⟨htr, hc⟩
    · rw [hc]
    · rw [hc]
      rcases ControlGroups.check_groups_id_or_insert_glob st.control_groups (cg.getD "") u
          hglob with hcc | ⟨-, hcc⟩
      · rw [hcc]
      · rw [hcc]
        have hname : n ≠ cg.getD "" := by
          cases cg with
          | none => exact absurd htr (by simp [truthy])
          | some s0 =>
            intro he
            exact hn (congrArg some he)
        exact dictLookup_insert_ne st.control_groups.groups (cg.getD "") n
          ControlGroupOptions.inherit hname
  · intro n hn
    rcases Hw with hc | ⟨htr, hc⟩
    · rw [hc]
    · rw [hc]
      rcases UserGroups.check_groups_id_or_insert st.control_whitelists (cw.getD "") u
          with hcc | ⟨-, hcc⟩
      · rw [hcc]
      · rw [hcc]
        have hname : n ≠ cw.getD "" := by
          cases cw with
          | none => exact absurd htr (by simp [truthy])
          | some s0 =>
            intro he
            exact hn (congrArg some he)
        exact dictLookup_insert_ne st.control_whitelists.groups (cw.getD "") n
          [] hname
  · intro n hn
    rcases Hb with hc | ⟨htr, hc⟩
    · rw [hc]
    · rw [hc]
      rcases UserGroups.check_groups_id_or_insert st.control_blacklists (cb.getD "") u
          with hcc | ⟨-, hcc⟩
      · rw [hcc]
      · rw [hcc]
        have hname : n ≠ cb.getD "" := by
          cases cb with
          | none => exact absurd htr (by simp [truthy])
          | some s0 =>
            intro he
            exact hn (congrArg some he)
        exact dictLookup_insert_ne st.control_blacklists.groups (cb.getD "") n
          [] hname
  · intro n h
    rcases Hg with hc | ⟨-, hc⟩
    · rw [hc]; exact Or.inl h
    · rw [hc]
      rcases ControlGroups.check_groups_id_or_insert_glob st.control_groups (cg.getD "") u
          hglob with hcc | ⟨-, hcc⟩
      · rw [hcc]; exact Or.inl h
      · rw [hcc]
        by_cases hng : n = cg.getD ""
        · rw [hng]
          exact Or.inr (dictLookup_insert_self st.control_groups.groups
            (cg.getD "") ControlGroupOptions.inherit)
        · rw [dictLookup_insert_ne st.control_groups.groups (cg.getD "") n
            ControlGroupOptions.inherit hng]
          exact Or.inl h
  · intro n h
    rcases Hw with hc | ⟨-, hc⟩
    · rw [hc]; exact Or.inl h
    · rw [hc]
      rcases UserGroups.check_groups_id_or_insert st.control_whitelists (cw.getD "") u
          with hcc | ⟨-, hcc⟩
      · rw [hcc]; exact Or.inl h
      · rw [hcc]
        by_cases hng : n = cw.getD ""
        · rw [hng]
          exact Or.inr (dictLookup_insert_self st.control_whitelists.groups
            (cw.getD "") [])
        · rw [dictLookup_insert_ne st.control_whitelists.groups (cw.getD "") n
            [] hng]
          exact Or.inl h
  · intro n h
    rcases Hb with hc | ⟨-, hc⟩
    · rw [hc]; exact Or.inl h
    · rw [hc]
      rcases UserGroups.check_groups_id_or_insert st.control_blacklists (cb.getD "") u
          with hcc | ⟨-, hcc⟩
      · rw [hcc]; exact Or.inl h
      · rw [hcc]
        by_cases hng : n = cb.getD ""
        · rw [hng]
          exact Or.inr (dictLookup_insert_self st.control_blacklists.groups
            (cb.getD "") [])
        · rw [dictLookup_insert_ne st.control_blacklists.groups (cb.getD "") n
            [] hng]
          exact Or.inl h

/-- Witness for C10: on the concrete state with all selectors absent, the
tracker collection is untouched by the check. -/
theorem C10_check_frame_effects_witness :
    (stW.check none none none 0).2.trackers = stW.trackers :=
  (C10_check_frame_effects stW none none none 0 (by decide)).1
